import Mathlib

/-
Shallow embedding of the RepCRec replicated-database engine
(TransactionManager.py, SiteManager.py, Site.py, Transaction.py,
Instruction.py, config.py).

Representation choices:
- Variable names "xN" are represented by their index N : Nat
  (the source parses `int(var[1:])` and builds names as "x" + str(i)).
- Python dicts are insertion-ordered association lists; `aset` replaces
  the value of an existing key in place and appends fresh keys, matching
  CPython dict semantics.
- Python sets are represented as duplicate-free lists where only
  membership matters; `sadd` inserts if absent.
- Variable objects carry only their mutable value (the other fields are
  immutable identification data).
-/

namespace RepCRec

/-- Association-list lookup (Python `dict.get`). -/
def alookup {α β : Type} [DecidableEq α] : List (α × β) → α → Option β
  | [], _ => none
  | (k, v) :: rest, key => if key = k then some v else alookup rest key

/-- Insertion-ordered dict update: replace in place or append (Python `d[k] = v`). -/
def aset {α β : Type} [DecidableEq α] : List (α × β) → α → β → List (α × β)
  | [], key, v => [(key, v)]
  | (k, w) :: rest, key, v =>
    if key = k then (key, v) :: rest else (k, w) :: aset rest key v

/-- Set insertion (Python `set.add`): append if not already a member. -/
def sadd {α : Type} [DecidableEq α] (l : List α) (x : α) : List α :=
  if x ∈ l then l else l ++ [x]

/-- Status of a single site (Site.SiteStatus). -/
inductive SiteStatus where
  | UP
  | DOWN
  | RECOVERING
deriving DecidableEq, Repr, Inhabited

/-- Status of a transaction (Transaction.TransactionStatus). -/
inductive TxnStatus where
  | RUNNING
  | ABORTED
  | COMMITTED
deriving DecidableEq, Repr, Inhabited

/-- One site: status, local storage (DataManager.variable_map, var index ↦
value), and the Available-Copies readability mask `recovered_variables`. -/
structure Site where
  status : SiteStatus
  data : List (Nat × Int)
  recovered : List Nat
deriving DecidableEq, Repr, Inhabited

/-- One transaction (Transaction.Transaction).  `startTs` is a plain Nat since
`begin` assigns it immediately after construction. -/
structure Txn where
  id : Nat
  name : String
  status : TxnStatus
  snapshot : List (Nat × Int)
  uncommitted : List (Nat × Int)
  readSet : List Nat
  readVariables : List (Nat × List Int)
  writeSet : List Nat
  startTs : Nat
  commitTs : Option Nat
  writeSites : List Nat
deriving DecidableEq, Repr, Inhabited

/-- Combined state of the SiteManager and the TransactionManager
(they hold mutual references in the source; the whole system is
single-threaded). -/
structure SysState where
  sites : List Site
  txnMap : List (String × Txn)
  currentTime : Nat
  lastCommitTs : List (Nat × Nat)
  lastWriter : List (Nat × String)
  versionHistory : List (Nat × List (Nat × String))
  depGraph : List (String × List String)
deriving DecidableEq, Repr

/-- config.py: NUM_SITES = 10. -/
def NUM_SITES : Nat := 10

/-- config.py: NUM_VARIABLES = 20. -/
def NUM_VARIABLES : Nat := 20

/-- Result of Variable.get_sites: either the sentinel `all` or one site id. -/
inductive SiteSel where
  | all
  | one (id : Nat)
deriving DecidableEq, Repr

/-- Modelled from the spec: Variable.py is not in the source tree; per §3/§4.1
`Variable.get_sites(i)` returns the sentinel `all` for even-indexed variables
and the single site id `1 + i mod 10` for odd-indexed ones. -/
def getSites (i : Nat) : SiteSel :=
  if i % 2 = 0 then .all else .one (1 + i % 10)

/-- SiteManager.get_site_range: normalize a site selector to a list of ids. -/
def siteRange : SiteSel → List Nat
  | .all => List.range' 1 NUM_SITES
  | .one s => [s]

/-- SiteManager.get_site, total via a default (all source accesses use ids
1..NUM_SITES against a 10-element fleet). -/
def getSite (s : SysState) (i : Nat) : Site :=
  s.sites.getD (i - 1) default

/-- Replace site `i` in the fleet. -/
def setSite (s : SysState) (i : Nat) (site : Site) : SysState :=
  { s with sites := s.sites.set (i - 1) site }

/-- Site.DataManager.__init__ hosting rule: variable i lives at this site iff
i is even or 1 + i mod 10 equals the site id (hardcoded range(1, 21)). -/
def hostsVar (sid i : Nat) : Bool :=
  i % 2 = 0 ∨ 1 + i % 10 = sid

/-- Site.__init__: storage holds every hosted variable at its initial value
10·i; `recovered_variables` starts as all hosted variables. -/
def initSite (sid : Nat) : Site :=
  { status := .UP
    data := (List.range' 1 NUM_VARIABLES).filterMap fun i =>
      if hostsVar sid i then some (i, (10 * i : Int)) else none
    recovered := (List.range' 1 NUM_VARIABLES).filter fun i => hostsVar sid i }

/-- Initial system state (Main wiring: fresh SiteManager and
TransactionManager, current_time = 0, all metadata empty). -/
def initState : SysState :=
  { sites := (List.range' 1 NUM_SITES).map initSite
    txnMap := []
    currentTime := 0
    lastCommitTs := []
    lastWriter := []
    versionHistory := []
    depGraph := [] }

/-- Site.fail: set status DOWN and clear the readability mask. -/
def siteFail (site : Site) : Site :=
  { site with status := .DOWN, recovered := [] }

/-- Site.recover: mark every odd-indexed hosted variable readable, then set
status RECOVERING. -/
def siteRecover (site : Site) : Site :=
  { site with
      recovered := site.data.foldl
        (fun r p => if p.1 % 2 ≠ 0 then sadd r p.1 else r) site.recovered
      status := .RECOVERING }

/-- Site.write_variable: refuse when DOWN; otherwise apply to the DataManager
(no-op when the variable is not hosted), and when RECOVERING and the variable
is even-indexed, mark it readable again. -/
def siteWriteVariable (site : Site) (i : Nat) (value : Int) : Site × Bool :=
  if site.status = .DOWN then (site, false)
  else
    let data := if (alookup site.data i).isSome then aset site.data i value else site.data
    let recovered :=
      if site.status = .RECOVERING ∧ i % 2 = 0 then sadd site.recovered i
      else site.recovered
    ({ site with data := data, recovered := recovered }, true)

/-- SiteManager.get_current_variables: for each variable scan sites in
ascending id and take the first replica at a site that is not DOWN and has the
variable both hosted and in `recovered_variables`; omit unreadable variables. -/
def smGetCurrentVariables (s : SysState) : List (Nat × Int) :=
  (List.range' 1 NUM_VARIABLES).filterMap fun i =>
    (((List.range' 1 NUM_SITES).findSome? fun sid =>
      let site := getSite s sid
      if site.status = .DOWN then none
      else if i ∈ site.recovered then alookup site.data i
      else none)).map fun v => (i, v)

/-- Per-transaction effect of a site failure: abort a non-terminal
transaction that wrote to the failed site, leave everything else alone. -/
def abortSiteFun (siteId : Nat) (p : String × Txn) : String × Txn :=
  if p.2.status = .ABORTED ∨ p.2.status = .COMMITTED then p
  else if siteId ∈ p.2.writeSites then (p.1, { p.2 with status := .ABORTED })
  else p

/-- TransactionManager.abort_transactions_on_site_failure: mark every
non-terminal transaction that wrote to the failed site ABORTED. -/
def abortTransactionsOnSiteFailure (s : SysState) (siteId : Nat) : SysState :=
  { s with txnMap := s.txnMap.map (abortSiteFun siteId) }

/-- SiteManager.fail: range-check (ValueError modelled as `none`), fail the
site, then notify the TransactionManager. -/
def smFail (s : SysState) (i : Nat) : Option SysState :=
  if 1 ≤ i ∧ i ≤ NUM_SITES then
    some (abortTransactionsOnSiteFailure (setSite s i (siteFail (getSite s i))) i)
  else none

/-- SiteManager.recover: range-check, then Site.recover. -/
def smRecover (s : SysState) (i : Nat) : Option SysState :=
  if 1 ≤ i ∧ i ≤ NUM_SITES then
    some (setSite s i (siteRecover (getSite s i)))
  else none

/-- SiteManager.tick dump(xN) branch: for each site returned by
Variable.get_sites, emit the value of every stored variable whose name
matches, with no status or readability check. -/
def dumpVariableOutput (s : SysState) (i : Nat) : List Int :=
  (siteRange (getSites i)).filterMap fun sid => alookup (getSite s sid).data i

/-- TransactionManager.begin: build a fresh RUNNING transaction with the
current snapshot and store it in transaction_map, overwriting any entry of
the same name. -/
def tmBegin (s : SysState) (name : String) : SysState :=
  let txn : Txn :=
    { id := s.txnMap.length
      name := name
      status := .RUNNING
      snapshot := smGetCurrentVariables s
      uncommitted := []
      readSet := []
      readVariables := []
      writeSet := []
      startTs := s.currentTime
      commitTs := none
      writeSites := [] }
  { s with txnMap := aset s.txnMap name txn }

/-- TransactionManager.write_request: buffer the write, record the variable
in write_set, and add every currently non-DOWN hosting site to write_sites.
No-op for unknown or terminal transactions. -/
def tmWriteRequest (s : SysState) (name : String) (i : Nat) (value : Int) : SysState :=
  match alookup s.txnMap name with
  | none => s
  | some txn =>
    if txn.status = .ABORTED ∨ txn.status = .COMMITTED then s
    else
      let ws := (siteRange (getSites i)).foldl
        (fun acc sid => if (getSite s sid).status ≠ .DOWN then sadd acc sid else acc)
        txn.writeSites
      let txn' := { txn with
        uncommitted := aset txn.uncommitted i value
        writeSet := sadd txn.writeSet i
        writeSites := ws }
      { s with txnMap := aset s.txnMap name txn' }

/-- Shared tail of read_request on success: add the variable to read_set and
append the observed value to read_variables. -/
def recordRead (s : SysState) (name : String) (txn : Txn) (i : Nat) (value : Int) : SysState :=
  let rv :=
    match alookup txn.readVariables i with
    | none => aset txn.readVariables i [value]
    | some l => aset txn.readVariables i (l ++ [value])
  let txn' := { txn with readSet := sadd txn.readSet i, readVariables := rv }
  { s with txnMap := aset s.txnMap name txn' }

/-- TransactionManager.read_request: read-your-writes from the buffer, else
from the snapshot, else abort; successful reads are recorded.  The second
component is the value the source logs (none when no read happened). -/
def tmReadRequest (s : SysState) (name : String) (i : Nat) : SysState × Option Int :=
  match alookup s.txnMap name with
  | none => (s, none)
  | some txn =>
    if txn.status = .ABORTED ∨ txn.status = .COMMITTED then (s, none)
    else
      match alookup txn.uncommitted i with
      | some v => (recordRead s name txn i v, some v)
      | none =>
        match alookup txn.snapshot i with
        | none =>
          let txn' := { txn with status := TxnStatus.ABORTED }
          ({ s with txnMap := aset s.txnMap name txn' }, none)
        | some v => (recordRead s name txn i v, some v)

/-- TransactionManager._add_edge: self-loops are skipped; defaultdict
semantics create the adjacency set on demand. -/
def addEdge (g : List (String × List String)) (frm dst : String) : List (String × List String) :=
  if frm = dst then g
  else aset g frm (sadd ((alookup g frm).getD []) dst)

/-- TransactionManager._remove_txn_from_graph: drop the node and every
incoming edge. -/
def removeTxnFromGraph (s : SysState) (name : String) : SysState :=
  let g := (s.depGraph.filter fun p => p.1 ≠ name).map fun p =>
    (p.1, p.2.filter fun v => v ≠ name)
  { s with depGraph := g }

/-- TransactionManager.abort: mark ABORTED and remove from the SSI graph;
no-op for unknown names. -/
def tmAbort (s : SysState) (name : String) : SysState :=
  match alookup s.txnMap name with
  | none => s
  | some txn =>
    let txn' := { txn with status := TxnStatus.ABORTED }
    removeTxnFromGraph { s with txnMap := aset s.txnMap name txn' } name

/-- TransactionManager.clear_aborted: call abort on each transaction already
marked ABORTED (entries stay in transaction_map; only the graph shrinks). -/
def clearAborted (s : SysState) : SysState :=
  (s.txnMap.map Prod.fst).foldl
    (fun acc n =>
      match alookup acc.txnMap n with
      | some txn => if txn.status = .ABORTED then tmAbort acc n else acc
      | none => acc)
    s

/-- TransactionManager._record_conflicts_on_commit: rw edges reader → writer,
ww edges ordered by start timestamp. -/
def recordConflictsOnCommit (s : SysState) (txn : Txn) : SysState :=
  let g :=
    txn.writeSet.foldl
      (fun g i =>
        s.txnMap.foldl
          (fun g p =>
            if p.1 = txn.name then g
            else if p.2.status = .ABORTED then g
            else
              let hasRead := i ∈ p.2.readSet
              let hasWrite := i ∈ p.2.writeSet
              let g :=
                if hasRead then
                  match txn.commitTs with
                  | some cts => if p.2.startTs < cts then addEdge g p.1 txn.name else g
                  | none => g
                else g
              if hasWrite ∧ ¬ hasRead then
                if p.2.startTs ≤ txn.startTs then addEdge g p.1 txn.name
                else addEdge g txn.name p.1
              else g)
          g)
      s.depGraph
  { s with depGraph := g }

/-- TransactionManager._has_cycle_from worker: fuelled DFS with a persistent
visited set and the current recursion path as stack.  Structural recursion
on the fuel keeps the function kernel-reducible; `graphFuel` always provides
enough fuel for the graphs the engine builds. -/
def dfsList : Nat → List (String × List String) → List String → List String → List String →
    Bool × List String
  | 0, _, visited, _, _ => (false, visited)
  | fuel + 1, g, visited, stack, todo =>
    match todo with
    | [] => (false, visited)
    | v :: vs =>
      if v ∈ visited then
        if v ∈ stack then (true, visited)
        else dfsList fuel g visited stack vs
      else
        let r := dfsList fuel g (sadd visited v) (v :: stack) ((alookup g v).getD [])
        if r.1 then (true, r.2) else dfsList fuel g r.2 stack vs

/-- Fuel bound for the DFS: generously larger than the number of recursion
steps any traversal of the graph can take. -/
def graphFuel (g : List (String × List String)) : Nat :=
  2 * (2 + g.foldl (fun a p => a + 1 + p.2.length) 0) + 2

/-- TransactionManager._has_cycle_from: DFS from the given node. -/
def hasCycleFrom (g : List (String × List String)) (start : String) : Bool :=
  (dfsList (graphFuel g) g [] [] [start]).1

/-- Phase-1 SI first-committer-wins condition for one variable, with Python
`dict.get(var, -1)` and `dict.get(var, None)` defaults. -/
def siCond (s : SysState) (startTs : Nat) (name : String) (i : Nat) : Bool :=
  match alookup s.lastCommitTs i with
  | none => false
  | some ts => if startTs < ts ∧ alookup s.lastWriter i ≠ some name then true else false

/-- Phase 1 of commit_transaction: the SI write-write conflict loop aborts
exactly when some buffered variable satisfies the first-committer-wins
condition. -/
def phase1Conflict (s : SysState) (name : String) (txn : Txn) : Bool :=
  txn.uncommitted.any fun p => siCond s txn.startTs name p.1

/-- Phase 2 of commit_transaction: append `(commit_ts, name)` to the version
history of every buffered variable. -/
def appendVersionHistory (s : SysState) (name : String) (time : Nat) (txn1 : Txn) :
    List (Nat × List (Nat × String)) :=
  txn1.uncommitted.foldl
    (fun vh p => aset vh p.1 (((alookup vh p.1).getD []) ++ [(time, name)]))
    s.versionHistory

/-- Inner loop of commit's Phase 5: push one buffered value to every
hosting site that is in write_sites and not currently DOWN. -/
def applyWriteToSites (txn1 : Txn) (p : Nat × Int) (acc : SysState) : SysState :=
  (siteRange (getSites p.1)).foldl
    (fun acc sid =>
      if sid ∉ txn1.writeSites then acc
      else
        let site := getSite acc sid
        if site.status = .DOWN then acc
        else setSite acc sid (siteWriteVariable site p.1 p.2).1)
    acc

/-- Phase 5 of commit_transaction: apply buffered values to every hosting
site recorded in write_sites and not currently DOWN, then refresh
last_commit_ts and last_writer. -/
def applyWrites (time : Nat) (name : String) (txn1 : Txn) (s2 : SysState) : SysState :=
  txn1.uncommitted.foldl
    (fun acc p =>
      let acc := applyWriteToSites txn1 p acc
      { acc with
          lastCommitTs := aset acc.lastCommitTs p.1 time
          lastWriter := aset acc.lastWriter p.1 name })
    s2

/-- State after commit's Phases 2 and 3: clock bumped, commit_ts assigned
and stored, version history appended, SSI edges recorded. -/
def commitPrepared (s : SysState) (name : String) (txn : Txn) : SysState :=
  let time := s.currentTime + 1
  let txn1 := { txn with commitTs := some time }
  recordConflictsOnCommit
    { s with
        currentTime := time
        txnMap := aset s.txnMap name txn1
        versionHistory := appendVersionHistory s name time txn1 }
    txn1

/-- TransactionManager.commit_transaction: SI check, commit-timestamp
assignment, version-history append, SSI edge recording, cycle check, and
replica application. -/
def tmCommitTransaction (s : SysState) (name : String) : SysState :=
  match alookup s.txnMap name with
  | none => s
  | some txn =>
    if txn.status = .COMMITTED ∨ txn.status = .ABORTED then s
    else if phase1Conflict s name txn then
      let txnA := { txn with status := TxnStatus.ABORTED }
      { s with txnMap := aset s.txnMap name txnA }
    else
      let time := s.currentTime + 1
      let txn1 := { txn with commitTs := some time }
      let s2 := commitPrepared s name txn
      if hasCycleFrom s2.depGraph name then
        let txn2 := { txn1 with status := TxnStatus.ABORTED, uncommitted := [] }
        removeTxnFromGraph { s2 with txnMap := aset s2.txnMap name txn2 } name
      else
        let s3 := applyWrites time name txn1 s2
        let txnC := { txn1 with status := TxnStatus.COMMITTED }
        { s3 with txnMap := aset s3.txnMap name txnC }

/-- TransactionManager.end: try to commit a live transaction, and prune an
aborted one from the SSI graph. -/
def tmEnd (s : SysState) (name : String) : SysState :=
  match alookup s.txnMap name with
  | none => s
  | some txn =>
    if txn.status = .COMMITTED ∨ txn.status = .ABORTED then s
    else
      let s' := tmCommitTransaction s name
      match alookup s'.txnMap name with
      | some txn' => if txn'.status = .ABORTED then removeTxnFromGraph s' name else s'
      | none => s'

/-- Parsed instruction kinds (Instruction.InstructionIO operation strings). -/
inductive Instr where
  | begin (name : String)
  | read (name : String) (i : Nat)
  | write (name : String) (i : Nat) (value : Int)
  | endT (name : String)
  | fail (i : Nat)
  | recover (i : Nat)
  | dumpAll
  | dumpVar (i : Nat)
  | dumpSite (i : Nat)
deriving DecidableEq, Repr

/-- TransactionManager.tick: advance the clock, prune aborted transactions,
dispatch. -/
def tmTick (s : SysState) (inst : Instr) : SysState :=
  let s := clearAborted { s with currentTime := s.currentTime + 1 }
  match inst with
  | .begin n => tmBegin s n
  | .read n i => (tmReadRequest s n i).1
  | .write n i v => tmWriteRequest s n i v
  | .endT n => tmEnd s n
  | _ => s

/-- InstructionIO.run dispatch: dump/fail/recover go to the SiteManager
(whose tick never touches current_time), everything else to the
TransactionManager.  `none` models the ValueError on a bad site index. -/
def step (s : SysState) (inst : Instr) : Option SysState :=
  match inst with
  | .fail i => smFail s i
  | .recover i => smRecover s i
  | .dumpAll => some s
  | .dumpVar _ => some s
  | .dumpSite i => if 1 ≤ i ∧ i ≤ NUM_SITES then some s else none
  | _ => some (tmTick s inst)

/-- Run a list of instructions from a state (the driver loop). -/
def runO : SysState → List Instr → Option SysState
  | s, [] => some s
  | s, inst :: rest =>
    match step s inst with
    | none => none
    | some s' => runO s' rest

theorem alookup_aset_self {α β : Type} [DecidableEq α] (l : List (α × β)) (k : α) (v : β) :
    alookup (aset l k v) k = some v := by
  induction l with
  | nil => simp [aset, alookup]
  | cons p rest ih =>
    by_cases h : k = p.1
    · simp [aset, alookup, h]
    · simp [aset, alookup, h, ih]

theorem alookup_aset_ne {α β : Type} [DecidableEq α] (l : List (α × β)) (k j : α) (v : β)
    (h : j ≠ k) : alookup (aset l k v) j = alookup l j := by
  induction l with
  | nil => simp [aset, alookup, h]
  | cons p rest ih =>
    by_cases hk : k = p.1
    · subst hk
      simp [aset, alookup, h]
    · by_cases hj : j = p.1
      · simp [aset, alookup, hk, hj]
      · simp [aset, alookup, hk, hj, ih]

theorem aset_lookup_eq {α β : Type} [DecidableEq α] (l : List (α × β)) (k : α) (v : β)
    (h : alookup l k = some v) : aset l k v = l := by
  induction l with
  | nil => simp [alookup] at h
  | cons p rest ih =>
    by_cases hk : k = p.1
    · subst hk
      simp [alookup] at h
      cases p
      simp_all [aset]
    · simp [alookup, hk] at h
      simp [aset, hk, ih h]

theorem alookup_map_value {α β : Type} [DecidableEq α] (l : List (α × β)) (f : α → β → β)
    (j : α) : alookup (l.map fun p => (p.1, f p.1 p.2)) j = (alookup l j).map (f j) := by
  induction l with
  | nil => simp [alookup]
  | cons p rest ih =>
    by_cases h : j = p.1
    · subst h
      simp [alookup]
    · simp [alookup, h, ih]

theorem mem_keys_of_alookup {α β : Type} [DecidableEq α] (l : List (α × β)) (k : α) (v : β)
    (h : alookup l k = some v) : (k, v) ∈ l := by
  induction l with
  | nil => simp [alookup] at h
  | cons p rest ih =>
    by_cases hk : k = p.1
    · subst hk
      simp [alookup] at h
      subst h
      simp
    · simp [alookup, hk] at h
      exact List.mem_cons_of_mem _ (ih h)

/-- A transaction whose status is already ABORTED is unchanged by re-marking. -/
theorem txn_abort_eta (t : Txn) (h : t.status = .ABORTED) :
    { t with status := TxnStatus.ABORTED } = t := by
  cases t
  simp_all

/-- tmAbort on an already-ABORTED transaction only prunes the graph. -/
theorem tmAbort_aborted_shape (s : SysState) (n : String) (txn : Txn)
    (hl : alookup s.txnMap n = some txn) (hs : txn.status = .ABORTED) :
    tmAbort s n = removeTxnFromGraph s n := by
  unfold tmAbort
  rw [hl]
  simp only [txn_abort_eta txn hs, aset_lookup_eq s.txnMap n txn hl]

theorem removeTxnFromGraph_txnMap (s : SysState) (n : String) :
    (removeTxnFromGraph s n).txnMap = s.txnMap := rfl

theorem removeTxnFromGraph_shape (s : SysState) (n : String) :
    ∃ g, removeTxnFromGraph s n = { s with depGraph := g } :=
  ⟨_, rfl⟩

/-- clear_aborted changes only the dependency graph: every transaction it
touches is already ABORTED, so re-marking and re-storing it is the identity
on transaction_map. -/
theorem clearAborted_shape (s : SysState) : ∃ g, clearAborted s = { s with depGraph := g } := by
  unfold clearAborted
  generalize (s.txnMap.map Prod.fst) = names
  suffices h : ∀ (l : List String) (acc : SysState) (g0 : List (String × List String)),
      acc = { s with depGraph := g0 } →
      ∃ g, (l.foldl (fun acc n =>
        match alookup acc.txnMap n with
        | some txn => if txn.status = .ABORTED then tmAbort acc n else acc
        | none => acc) acc) = { s with depGraph := g } by
    exact h names s s.depGraph rfl
  intro l
  induction l with
  | nil =>
    intro acc g0 hacc
    exact ⟨g0, hacc⟩
  | cons n rest ih =>
    intro acc g0 hacc
    simp only [List.foldl_cons]
    cases hcase : alookup acc.txnMap n with
    | none =>
      dsimp only
      exact ih acc g0 hacc
    | some txn =>
      dsimp only
      by_cases hst : txn.status = .ABORTED
      · rw [if_pos hst, tmAbort_aborted_shape acc n txn hcase hst]
        obtain ⟨g1, hg1⟩ := removeTxnFromGraph_shape acc n
        subst hacc
        exact ih _ _ hg1
      · rw [if_neg hst]
        exact ih acc g0 hacc

theorem clearAborted_txnMap (s : SysState) : (clearAborted s).txnMap = s.txnMap := by
  obtain ⟨g, hg⟩ := clearAborted_shape s
  rw [hg]

theorem clearAborted_currentTime (s : SysState) :
    (clearAborted s).currentTime = s.currentTime := by
  obtain ⟨g, hg⟩ := clearAborted_shape s
  rw [hg]

theorem clearAborted_sites (s : SysState) : (clearAborted s).sites = s.sites := by
  obtain ⟨g, hg⟩ := clearAborted_shape s
  rw [hg]

theorem clearAborted_lastCommitTs (s : SysState) :
    (clearAborted s).lastCommitTs = s.lastCommitTs := by
  obtain ⟨g, hg⟩ := clearAborted_shape s
  rw [hg]

theorem clearAborted_lastWriter (s : SysState) :
    (clearAborted s).lastWriter = s.lastWriter := by
  obtain ⟨g, hg⟩ := clearAborted_shape s
  rw [hg]

theorem foldl_preserves {α β : Type} (f : β → α → β) (P : β → Prop)
    (h : ∀ acc x, P acc → P (f acc x)) :
    ∀ (l : List α) (acc : β), P acc → P (l.foldl f acc) := by
  intro l
  induction l with
  | nil => intro acc hacc; exact hacc
  | cons x rest ih => intro acc hacc; exact ih (f acc x) (h acc x hacc)

theorem setSite_txnMap (s : SysState) (i : Nat) (site : Site) :
    (setSite s i site).txnMap = s.txnMap := rfl

theorem recordConflicts_txnMap (s : SysState) (t : Txn) :
    (recordConflictsOnCommit s t).txnMap = s.txnMap := rfl

theorem recordConflicts_sites (s : SysState) (t : Txn) :
    (recordConflictsOnCommit s t).sites = s.sites := rfl

theorem recordConflicts_currentTime (s : SysState) (t : Txn) :
    (recordConflictsOnCommit s t).currentTime = s.currentTime := rfl

theorem recordConflicts_lastCommitTs (s : SysState) (t : Txn) :
    (recordConflictsOnCommit s t).lastCommitTs = s.lastCommitTs := rfl

theorem recordConflicts_lastWriter (s : SysState) (t : Txn) :
    (recordConflictsOnCommit s t).lastWriter = s.lastWriter := rfl

theorem recordConflicts_versionHistory (s : SysState) (t : Txn) :
    (recordConflictsOnCommit s t).versionHistory = s.versionHistory := rfl

theorem removeTxnFromGraph_sites (s : SysState) (n : String) :
    (removeTxnFromGraph s n).sites = s.sites := rfl

theorem removeTxnFromGraph_currentTime (s : SysState) (n : String) :
    (removeTxnFromGraph s n).currentTime = s.currentTime := rfl

/-- The inner Phase-5 loop changes only the sites component. -/
theorem applyWriteToSites_shape (txn1 : Txn) (p : Nat × Int) (acc : SysState) :
    ∃ st, applyWriteToSites txn1 p acc = { acc with sites := st } := by
  unfold applyWriteToSites
  refine foldl_preserves _ (fun (a : SysState) => ∃ st, a = { acc with sites := st }) ?_ _ _
    ⟨acc.sites, rfl⟩
  intro a sid ⟨st, ha⟩
  dsimp only
  by_cases h1 : sid ∉ txn1.writeSites
  · rw [if_pos h1]
    exact ⟨st, ha⟩
  · rw [if_neg h1]
    by_cases h2 : (getSite a sid).status = .DOWN
    · simp only [h2, if_pos]
      exact ⟨st, ha⟩
    · simp only [h2, if_neg]
      subst ha
      exact ⟨_, rfl⟩

/-- Phase 5 changes only sites, last_commit_ts, and last_writer. -/
theorem applyWrites_shape (time : Nat) (name : String) (txn1 : Txn) (s2 : SysState) :
    ∃ st lc lw, applyWrites time name txn1 s2 =
      { s2 with sites := st, lastCommitTs := lc, lastWriter := lw } := by
  unfold applyWrites
  refine foldl_preserves _
    (fun (a : SysState) => ∃ st lc lw,
      a = { s2 with sites := st, lastCommitTs := lc, lastWriter := lw }) ?_ _ _
    ⟨s2.sites, s2.lastCommitTs, s2.lastWriter, rfl⟩
  intro a p ⟨st, lc, lw, ha⟩
  dsimp only
  obtain ⟨st2, hst2⟩ := applyWriteToSites_shape txn1 p a
  rw [hst2, ha]
  exact ⟨_, _, _, rfl⟩

/-- The write-application fold of commit's Phase 5 never touches the
transaction map. -/
theorem applyWrites_txnMap (time : Nat) (name : String) (txn1 : Txn) (s2 : SysState) :
    (applyWrites time name txn1 s2).txnMap = s2.txnMap := by
  obtain ⟨st, lc, lw, h⟩ := applyWrites_shape time name txn1 s2
  rw [h]

/-- The Phase-5 fold never touches the clock. -/
theorem applyWrites_currentTime (time : Nat) (name : String) (txn1 : Txn) (s2 : SysState) :
    (applyWrites time name txn1 s2).currentTime = s2.currentTime := by
  obtain ⟨st, lc, lw, h⟩ := applyWrites_shape time name txn1 s2
  rw [h]

/-- The Phase-5 fold never touches the version history. -/
theorem applyWrites_versionHistory (time : Nat) (name : String) (txn1 : Txn) (s2 : SysState) :
    (applyWrites time name txn1 s2).versionHistory = s2.versionHistory := by
  obtain ⟨st, lc, lw, h⟩ := applyWrites_shape time name txn1 s2
  rw [h]

/-- The Phase-1 SI condition for one variable, characterized as in the spec. -/
theorem siCond_iff (s : SysState) (st : Nat) (n : String) (i : Nat) :
    siCond s st n i = true ↔
      (∃ ts, alookup s.lastCommitTs i = some ts ∧ st < ts) ∧
        alookup s.lastWriter i ≠ some n := by
  unfold siCond
  cases h : alookup s.lastCommitTs i with
  | none => simp
  | some ts =>
    dsimp only
    by_cases hc : st < ts ∧ alookup s.lastWriter i ≠ some n
    · rw [if_pos hc]
      constructor
      · intro _
        exact ⟨⟨ts, rfl, hc.1⟩, hc.2⟩
      · intro _
        rfl
    · simp only [if_neg hc]
      constructor
      · intro hfalse; exact absurd hfalse (by simp)
      · rintro ⟨⟨ts', hts', hlt⟩, hw⟩
        cases hts'
        exact absurd ⟨hlt, hw⟩ hc

/-- C1: for a RUNNING transaction, commit aborts in Phase 1 exactly when some
buffered variable var has last_commit_ts[var] > start_ts and
last_writer[var] ≠ name (first-committer-wins under SI); when no such
variable exists the commit proceeds past Phase 1 and a commit timestamp is
assigned. -/
theorem commit_phase1_si_first_committer_wins (s : SysState) (name : String) (txn : Txn)
    (hl : alookup s.txnMap name = some txn) (hr : txn.status = .RUNNING) :
    (phase1Conflict s name txn = true ↔
      ∃ p ∈ txn.uncommitted,
        (∃ ts, alookup s.lastCommitTs p.1 = some ts ∧ txn.startTs < ts) ∧
          alookup s.lastWriter p.1 ≠ some name) ∧
    (phase1Conflict s name txn = true →
      tmCommitTransaction s name =
        { s with txnMap := aset s.txnMap name { txn with status := TxnStatus.ABORTED } }) ∧
    (phase1Conflict s name txn = false →
      ∃ txn', alookup (tmCommitTransaction s name).txnMap name = some txn' ∧
        txn'.commitTs = some (s.currentTime + 1)) := by
  have hterm : ¬ (txn.status = .COMMITTED ∨ txn.status = .ABORTED) := by
    rw [hr]; intro h; rcases h with h | h <;> exact absurd h (by simp)
  refine ⟨?_, ?_, ?_⟩
  · unfold phase1Conflict
    rw [List.any_eq_true]
    constructor
    · rintro ⟨p, hp, hcond⟩
      exact ⟨p, hp, (siCond_iff s txn.startTs name p.1).mp hcond⟩
    · rintro ⟨p, hp, hcond⟩
      exact ⟨p, hp, (siCond_iff s txn.startTs name p.1).mpr hcond⟩
  · intro hconf
    unfold tmCommitTransaction
    rw [hl]
    dsimp only
    rw [if_neg hterm, if_pos hconf]
  · intro hconf
    unfold tmCommitTransaction
    rw [hl]
    dsimp only
    rw [if_neg hterm, if_neg (by rw [hconf]; simp)]
    by_cases hc : hasCycleFrom (commitPrepared s name txn).depGraph name = true
    · rw [if_pos hc, removeTxnFromGraph_txnMap]
      exact ⟨_, alookup_aset_self _ _ _, rfl⟩
    · rw [if_neg hc]
      exact ⟨_, alookup_aset_self _ _ _, rfl⟩

/-- Witness for C1 at a concrete state: after begin(T1) the transaction is
RUNNING with an empty buffer, so Phase 1 finds no conflict and commit
assigns timestamp current_time + 1. -/
theorem commit_phase1_si_first_committer_wins_witness :
    ∃ txn', alookup (tmCommitTransaction (tmTick initState (.begin "T1")) "T1").txnMap "T1"
        = some txn' ∧ txn'.commitTs = some ((tmTick initState (.begin "T1")).currentTime + 1) := by
  have h := commit_phase1_si_first_committer_wins (tmTick initState (.begin "T1")) "T1"
    ((alookup (tmTick initState (.begin "T1")).txnMap "T1").getD default)
    (by decide) (by decide)
  exact h.2.2 (by decide)

/-- A replica of variable i is readable at site sid when the site is not
DOWN, hosts i, and lists i in recovered_variables. -/
def readableSite (s : SysState) (i sid : Nat) : Bool :=
  let site := getSite s sid
  decide (site.status ≠ .DOWN ∧ (alookup site.data i).isSome ∧ i ∈ site.recovered)

/-- The per-site probe inside get_current_variables returns a value exactly
at readable sites. -/
theorem snapshotProbe_eq (s : SysState) (i sid : Nat) :
    (let site := getSite s sid
     if site.status = .DOWN then none
     else if i ∈ site.recovered then alookup site.data i
     else none)
    = if readableSite s i sid then alookup (getSite s sid).data i else none := by
  unfold readableSite
  by_cases hd : (getSite s sid).status = .DOWN
  · simp [hd]
  · by_cases hr : i ∈ (getSite s sid).recovered
    · cases hl : alookup (getSite s sid).data i with
      | none => simp [hd, hr, hl]
      | some v => simp [hd, hr, hl]
    · simp [hd, hr]

theorem findSome?_guard_eq_find?_bind {α β : Type} (p : α → Bool) (h : α → Option β)
    (hp : ∀ x, p x = true → (h x).isSome) :
    ∀ l : List α,
      (l.findSome? fun x => if p x then h x else none) = (l.find? p).bind h := by
  intro l
  induction l with
  | nil => simp
  | cons x rest ih =>
    by_cases hx : p x = true
    · cases hv : h x with
      | none => exact absurd (hv ▸ hp x hx) (by simp)
      | some v => simp [List.findSome?_cons, List.find?_cons, hx, hv]
    · simp only [List.findSome?_cons, List.find?_cons]
      rw [if_neg hx]
      simp only [Bool.not_eq_true] at hx
      rw [hx]
      exact ih

theorem alookup_filterMap_guard {β : Type} (g : Nat → Option β) :
    ∀ (l : List Nat) (j : Nat),
      alookup (l.filterMap fun i => (g i).map fun v => (i, v)) j
        = if j ∈ l then g j else none := by
  intro l
  induction l with
  | nil => simp [alookup]
  | cons x rest ih =>
    intro j
    simp only [List.filterMap_cons]
    cases hg : g x with
    | none =>
      simp only [Option.map_none']
      rw [ih j]
      by_cases hj : j = x
      · subst hj
        rw [hg]
        simp
      · simp [List.mem_cons, hj]
    | some v =>
      simp only [Option.map_some']
      by_cases hj : j = x
      · subst hj
        simp [alookup, hg]
      · simp only [alookup, if_neg hj]
        rw [ih j]
        simp [List.mem_cons, hj]

/-- C2: get_current_variables binds each variable in range to the value at
the first site, in ascending id, that is not DOWN, hosts it, and lists it in
recovered_variables; when no site qualifies the variable is absent. -/
theorem get_current_variables_first_readable (s : SysState) (i : Nat)
    (h1 : 1 ≤ i) (h2 : i ≤ NUM_VARIABLES) :
    alookup (smGetCurrentVariables s) i =
      (((List.range' 1 NUM_SITES).find? fun sid => readableSite s i sid).bind
        fun sid => alookup (getSite s sid).data i) := by
  unfold smGetCurrentVariables
  rw [alookup_filterMap_guard
    (fun i => (List.range' 1 NUM_SITES).findSome? fun sid =>
      let site := getSite s sid
      if site.status = .DOWN then none
      else if i ∈ site.recovered then alookup site.data i
      else none)]
  rw [if_pos (by rw [List.mem_range'_1]; omega)]
  rw [show (fun sid =>
        let site := getSite s sid
        if site.status = .DOWN then none
        else if i ∈ site.recovered then alookup site.data i
        else none)
      = fun sid => if readableSite s i sid then alookup (getSite s sid).data i else none
    from funext fun sid => snapshotProbe_eq s i sid]
  exact findSome?_guard_eq_find?_bind _ _
    (fun sid hs => by
      unfold readableSite at hs
      simp only [decide_eq_true_eq] at hs
      exact hs.2.1) _

/-- Witness for C2 at the initial fleet: x1 is read from site 2, the first
(and only) site hosting it. -/
theorem get_current_variables_first_readable_witness :
    alookup (smGetCurrentVariables initState) 1 =
      (((List.range' 1 NUM_SITES).find? fun sid => readableSite initState 1 sid).bind
        fun sid => alookup (getSite initState sid).data 1) :=
  get_current_variables_first_readable initState 1 (by decide) (by decide)

/-- Emission list that C6 claims for dump(xN): values only from sites
currently holding a readable copy. -/
def dumpVariableClaimed (s : SysState) (i : Nat) : List Int :=
  (siteRange (getSites i)).filterMap fun sid =>
    if readableSite s i sid then alookup (getSite s sid).data i else none

/-- C6 counterexample: after fail(2) the site 2 replica of x2 is not
readable, yet dump(x2) still emits its value (the dump code checks neither
status nor recovered_variables), so the dump output differs from the
claimed readable-sites-only output. -/
theorem dump_var_emits_at_down_site :
    dumpVariableOutput ((smFail initState 2).getD initState) 2 ≠
      dumpVariableClaimed ((smFail initState 2).getD initState) 2 := by
  decide

theorem filterMap_eq_map_filter_isSome {α β : Type} (f : α → Option β) (d : β) :
    ∀ l : List α,
      l.filterMap f = ((l.filter fun x => (f x).isSome).map fun x => (f x).getD d) := by
  intro l
  induction l with
  | nil => simp
  | cons x rest ih =>
    cases hf : f x with
    | none => simp [List.filterMap_cons, List.filter_cons, hf, ih]
    | some v => simp [List.filterMap_cons, List.filter_cons, hf, ih]

/-- C6 amended: dump(xN) emits the stored value of xN at every site in
Variable.get_sites' range that hosts it, in ascending order, regardless of
the site's status or readability mask. -/
theorem dump_var_emits_at_every_hosting_site (s : SysState) (i : Nat) :
    dumpVariableOutput s i =
      (((siteRange (getSites i)).filter fun sid => (alookup (getSite s sid).data i).isSome).map
        fun sid => (alookup (getSite s sid).data i).getD 0) := by
  unfold dumpVariableOutput
  exact filterMap_eq_map_filter_isSome _ 0 _

/-- The recorded transaction after a successful read has the value appended
to read_variables and the variable added to read_set, everything else
unchanged. -/
theorem recordRead_spec (s : SysState) (name : String) (txn : Txn) (i : Nat) (v : Int) :
    ∃ txn',
      recordRead s name txn i v = { s with txnMap := aset s.txnMap name txn' } ∧
      txn'.readSet = sadd txn.readSet i ∧
      alookup txn'.readVariables i = some (((alookup txn.readVariables i).getD []) ++ [v]) ∧
      txn'.status = txn.status ∧ txn'.uncommitted = txn.uncommitted ∧
      txn'.snapshot = txn.snapshot ∧ txn'.commitTs = txn.commitTs ∧
      txn'.startTs = txn.startTs ∧ txn'.writeSet = txn.writeSet ∧
      txn'.writeSites = txn.writeSites := by
  unfold recordRead
  cases hrv : alookup txn.readVariables i with
  | none =>
    refine ⟨_, rfl, rfl, ?_, rfl, rfl, rfl, rfl, rfl, rfl, rfl⟩
    rw [alookup_aset_self]
    simp
  | some l =>
    refine ⟨_, rfl, rfl, ?_, rfl, rfl, rfl, rfl, rfl, rfl, rfl⟩
    rw [alookup_aset_self]
    simp

/-- C3: read_request returns the buffered value for variables in
uncommitted_variables, else the snapshot value, else aborts; successful
reads append the value to read_variables and add the variable to read_set;
unknown or terminal transactions are untouched. -/
theorem read_request_semantics (s : SysState) (name : String) (i : Nat) :
    (alookup s.txnMap name = none → tmReadRequest s name i = (s, none)) ∧
    (∀ txn, alookup s.txnMap name = some txn →
      ((txn.status = .ABORTED ∨ txn.status = .COMMITTED) →
        tmReadRequest s name i = (s, none)) ∧
      (txn.status = .RUNNING →
        (∀ v, alookup txn.uncommitted i = some v →
          ∃ txn',
            tmReadRequest s name i = ({ s with txnMap := aset s.txnMap name txn' }, some v) ∧
            txn'.readSet = sadd txn.readSet i ∧
            alookup txn'.readVariables i =
              some (((alookup txn.readVariables i).getD []) ++ [v]) ∧
            txn'.status = .RUNNING ∧ txn'.uncommitted = txn.uncommitted) ∧
        (alookup txn.uncommitted i = none →
          (∀ v, alookup txn.snapshot i = some v →
            ∃ txn',
              tmReadRequest s name i = ({ s with txnMap := aset s.txnMap name txn' }, some v) ∧
              txn'.readSet = sadd txn.readSet i ∧
              alookup txn'.readVariables i =
                some (((alookup txn.readVariables i).getD []) ++ [v]) ∧
              txn'.status = .RUNNING ∧ txn'.uncommitted = txn.uncommitted) ∧
          (alookup txn.snapshot i = none →
            tmReadRequest s name i =
              ({ s with txnMap := aset s.txnMap name { txn with status := TxnStatus.ABORTED } },
                none))))) := by
  constructor
  · intro hnone
    unfold tmReadRequest
    rw [hnone]
  · intro txn hsome
    refine ⟨?_, ?_⟩
    · intro hterm
      unfold tmReadRequest
      rw [hsome]
      dsimp only
      rw [if_pos hterm]
    · intro hrun
      have hterm : ¬ (txn.status = .ABORTED ∨ txn.status = .COMMITTED) := by
        rw [hrun]; intro h; rcases h with h | h <;> exact absurd h (by simp)
      refine ⟨?_, ?_⟩
      · intro v hbuf
        obtain ⟨txn', heq, h1, h2, h3, h4, _⟩ := recordRead_spec s name txn i v
        refine ⟨txn', ?_, h1, h2, h3 ▸ hrun, h4⟩
        unfold tmReadRequest
        rw [hsome]
        dsimp only
        rw [if_neg hterm, hbuf]
        dsimp only
        rw [heq]
      · intro hbuf
        refine ⟨?_, ?_⟩
        · intro v hsnap
          obtain ⟨txn', heq, h1, h2, h3, h4, _⟩ := recordRead_spec s name txn i v
          refine ⟨txn', ?_, h1, h2, h3 ▸ hrun, h4⟩
          unfold tmReadRequest
          rw [hsome]
          dsimp only
          rw [if_neg hterm, hbuf]
          dsimp only
          rw [hsnap]
          dsimp only
          rw [heq]
        · intro hsnap
          unfold tmReadRequest
          rw [hsome]
          dsimp only
          rw [if_neg hterm, hbuf]
          dsimp only
          rw [hsnap]

/-- State for the C3 witness: T1 has begun and buffered x1 = 5. -/
def c3State : SysState := tmTick (tmTick initState (.begin "T1")) (.write "T1" 1 5)

/-- The T1 transaction record inside `c3State`. -/
def c3Txn : Txn := (alookup c3State.txnMap "T1").getD default

/-- Witness for C3: in a state where T1 has buffered x1 = 5, reading x1
yields the buffered value 5 and records the read. -/
theorem read_request_semantics_witness :
    ∃ txn',
      tmReadRequest c3State "T1" 1 =
        ({ c3State with txnMap := aset c3State.txnMap "T1" txn' }, some 5) ∧
      txn'.readSet = sadd c3Txn.readSet 1 ∧
      alookup txn'.readVariables 1 = some (((alookup c3Txn.readVariables 1).getD []) ++ [5]) ∧
      txn'.status = .RUNNING ∧ txn'.uncommitted = c3Txn.uncommitted := by
  have h := read_request_semantics c3State "T1" 1
  exact (((h.2 c3Txn (by decide)).2 (by decide)).1) 5 (by decide)

theorem siteFail_idem (x : Site) : siteFail (siteFail x) = siteFail x := rfl

theorem abortSiteFun_idem (siteId : Nat) (p : String × Txn) :
    abortSiteFun siteId (abortSiteFun siteId p) = abortSiteFun siteId p := by
  unfold abortSiteFun
  by_cases h1 : p.2.status = .ABORTED ∨ p.2.status = .COMMITTED
  · rw [if_pos h1, if_pos h1]
  · rw [if_neg h1]
    by_cases h2 : siteId ∈ p.2.writeSites
    · rw [if_pos h2]
      simp
    · rw [if_neg h2, if_neg h1, if_neg h2]

theorem map_abortSiteFun_idem (siteId : Nat) :
    ∀ l : List (String × Txn),
      (l.map (abortSiteFun siteId)).map (abortSiteFun siteId) = l.map (abortSiteFun siteId) := by
  intro l
  induction l with
  | nil => rfl
  | cons p rest ih => simp [List.map_cons, abortSiteFun_idem, ih]

theorem getD_set_self {α : Type} :
    ∀ (l : List α) (n : Nat) (a d : α), n < l.length → (l.set n a).getD n d = a := by
  intro l
  induction l with
  | nil => intro n a d h; exact absurd h (by simp)
  | cons x rest ih =>
    intro n a d h
    cases n with
    | zero => rfl
    | succ m => exact ih m a d (by simpa using h)

theorem set_of_length_le {α : Type} :
    ∀ (l : List α) (n : Nat) (a : α), l.length ≤ n → l.set n a = l := by
  intro l
  induction l with
  | nil => intro n a _; simp
  | cons x rest ih =>
    intro n a h
    cases n with
    | zero => exact absurd h (by simp)
    | succ m => simp [List.set_cons_succ, ih m a (by simpa using h)]

/-- C8: failing a site a second time in immediate succession is a no-op on
the whole system state (sites, transactions, and all transaction-manager
metadata). -/
theorem fail_idempotent (s : SysState) (i : Nat) (s' : SysState)
    (h : smFail s i = some s') : smFail s' i = some s' := by
  unfold smFail at h ⊢
  by_cases hr : 1 ≤ i ∧ i ≤ NUM_SITES
  · rw [if_pos hr] at h ⊢
    injection h with h
    subst h
    congr 1
    have hfs : siteFail (getSite (abortTransactionsOnSiteFailure
        (setSite s i (siteFail (getSite s i))) i) i) = siteFail (getSite s i) := by
      show siteFail ((s.sites.set (i - 1) (siteFail (getSite s i))).getD (i - 1) default)
        = siteFail (getSite s i)
      by_cases hlen : i - 1 < s.sites.length
      · rw [getD_set_self _ _ _ _ hlen]
        exact siteFail_idem _
      · rw [set_of_length_le _ _ _ (by omega)]
        rfl
    rw [hfs]
    show ({ s with
        sites := (s.sites.set (i - 1) (siteFail (getSite s i))).set (i - 1)
          (siteFail (getSite s i))
        txnMap := (s.txnMap.map (abortSiteFun i)).map (abortSiteFun i) } : SysState)
      = { s with
          sites := s.sites.set (i - 1) (siteFail (getSite s i))
          txnMap := s.txnMap.map (abortSiteFun i) }
    rw [List.set_set, map_abortSiteFun_idem]
  · rw [if_neg hr] at h
    exact absurd h (by simp)

/-- Witness for C8: failing site 1 twice from the initial state equals
failing it once. -/
theorem fail_idempotent_witness :
    smFail ((smFail initState 1).getD initState) 1 = some ((smFail initState 1).getD initState) :=
  fail_idempotent initState 1 ((smFail initState 1).getD initState) (by decide)

/-- C10: begin(name) unconditionally installs a fresh RUNNING transaction
with an empty write buffer and the current snapshot, replacing any existing
entry of the same name; the displaced transaction (if its buffer was
nonempty) is no longer reachable from transaction_map, and no site changes. -/
theorem begin_overwrites (s : SysState) (name : String) (oldTxn : Txn)
    (h : alookup s.txnMap name = some oldTxn) :
    (∃ txn', alookup (tmBegin s name).txnMap name = some txn' ∧
      txn'.status = .RUNNING ∧ txn'.uncommitted = [] ∧ txn'.startTs = s.currentTime ∧
      txn'.snapshot = smGetCurrentVariables s ∧ txn'.writeSet = [] ∧ txn'.commitTs = none) ∧
    (∀ m, m ≠ name → alookup (tmBegin s name).txnMap m = alookup s.txnMap m) ∧
    (tmBegin s name).sites = s.sites ∧
    (oldTxn.uncommitted ≠ [] → alookup (tmBegin s name).txnMap name ≠ some oldTxn) := by
  have hself : alookup (tmBegin s name).txnMap name = some
      { id := s.txnMap.length
        name := name
        status := .RUNNING
        snapshot := smGetCurrentVariables s
        uncommitted := []
        readSet := []
        readVariables := []
        writeSet := []
        startTs := s.currentTime
        commitTs := none
        writeSites := [] } := alookup_aset_self _ _ _
  refine ⟨⟨_, hself, rfl, rfl, rfl, rfl, rfl, rfl⟩, ?_, rfl, ?_⟩
  · intro m hm
    exact alookup_aset_ne _ _ _ _ hm
  · intro hbuf heq
    rw [hself] at heq
    injection heq with heq
    apply hbuf
    rw [← heq]

/-- Witness for C10: beginning T1 again while the first T1 is RUNNING with a
nonempty buffer displaces it. -/
theorem begin_overwrites_witness :
    (∃ txn', alookup (tmBegin c3State "T1").txnMap "T1" = some txn' ∧
      txn'.status = .RUNNING ∧ txn'.uncommitted = [] ∧ txn'.startTs = c3State.currentTime ∧
      txn'.snapshot = smGetCurrentVariables c3State ∧ txn'.writeSet = [] ∧
      txn'.commitTs = none) ∧
    (∀ m, m ≠ "T1" → alookup (tmBegin c3State "T1").txnMap m = alookup c3State.txnMap m) ∧
    (tmBegin c3State "T1").sites = c3State.sites ∧
    (c3Txn.uncommitted ≠ [] → alookup (tmBegin c3State "T1").txnMap "T1" ≠ some c3Txn) :=
  begin_overwrites c3State "T1" c3Txn (by decide)

/-- Commit assigns a commit timestamp (and so bumps the clock a second time)
exactly when the transaction exists, is not terminal, and passes Phase 1. -/
def assignsCommit (s : SysState) (n : String) : Bool :=
  match alookup s.txnMap n with
  | none => false
  | some txn =>
    if txn.status = .ABORTED ∨ txn.status = .COMMITTED then false
    else ! phase1Conflict s n txn

theorem siCond_congr (s s' : SysState) (st : Nat) (n : String) (i : Nat)
    (h1 : s.lastCommitTs = s'.lastCommitTs) (h2 : s.lastWriter = s'.lastWriter) :
    siCond s st n i = siCond s' st n i := by
  unfold siCond
  rw [h1, h2]

theorem phase1Conflict_congr (s s' : SysState) (n : String) (txn : Txn)
    (h1 : s.lastCommitTs = s'.lastCommitTs) (h2 : s.lastWriter = s'.lastWriter) :
    phase1Conflict s n txn = phase1Conflict s' n txn := by
  unfold phase1Conflict
  congr 1
  funext p
  rw [siCond_congr s s' txn.startTs n p.1 h1 h2]

theorem assignsCommit_congr (s s' : SysState) (n : String)
    (h0 : s.txnMap = s'.txnMap) (h1 : s.lastCommitTs = s'.lastCommitTs)
    (h2 : s.lastWriter = s'.lastWriter) :
    assignsCommit s n = assignsCommit s' n := by
  unfold assignsCommit
  rw [h0]
  cases alookup s'.txnMap n with
  | none => rfl
  | some txn =>
    dsimp only
    rw [phase1Conflict_congr s s' n txn h1 h2]

theorem tmCommitTransaction_currentTime (s : SysState) (n : String) :
    (tmCommitTransaction s n).currentTime =
      s.currentTime + (if assignsCommit s n then 1 else 0) := by
  unfold tmCommitTransaction
  cases hl : alookup s.txnMap n with
  | none => simp [assignsCommit, hl]
  | some txn =>
    dsimp only
    by_cases hterm : txn.status = .COMMITTED ∨ txn.status = .ABORTED
    · rw [if_pos hterm]
      have hac : assignsCommit s n = false := by
        unfold assignsCommit
        rw [hl]
        dsimp only
        rw [if_pos hterm.symm]
      rw [hac]
      rfl
    · rw [if_neg hterm]
      have hac : assignsCommit s n = !phase1Conflict s n txn := by
        unfold assignsCommit
        rw [hl]
        dsimp only
        rw [if_neg fun h => hterm h.symm]
      by_cases hconf : phase1Conflict s n txn = true
      · rw [if_pos hconf]
        have hrhs : (if assignsCommit s n = true then 1 else 0) = 0 := by
          rw [hac, hconf]
          rfl
        rw [hrhs]
        rfl
      · rw [if_neg hconf]
        simp only [Bool.not_eq_true] at hconf
        have hrhs : (if assignsCommit s n = true then 1 else 0) = 1 := by
          rw [hac, hconf]
          rfl
        rw [hrhs]
        split
        · rw [removeTxnFromGraph_currentTime]
          rfl
        · rw [show ∀ (x : SysState) (t : Txn),
                ({ x with txnMap := aset x.txnMap n t } : SysState).currentTime = x.currentTime
              from fun x t => rfl]
          rw [applyWrites_currentTime]
          rfl

theorem tmEnd_currentTime (s : SysState) (n : String) :
    (tmEnd s n).currentTime = s.currentTime + (if assignsCommit s n then 1 else 0) := by
  unfold tmEnd
  cases hl : alookup s.txnMap n with
  | none => simp [assignsCommit, hl]
  | some txn =>
    dsimp only
    by_cases hterm : txn.status = .COMMITTED ∨ txn.status = .ABORTED
    · rw [if_pos hterm]
      have hac : assignsCommit s n = false := by
        unfold assignsCommit
        rw [hl]
        dsimp only
        rw [if_pos hterm.symm]
      rw [hac]
      rfl
    · rw [if_neg hterm]
      cases h2 : alookup (tmCommitTransaction s n).txnMap n with
      | none =>
        dsimp only
        exact tmCommitTransaction_currentTime s n
      | some txn' =>
        dsimp only
        split
        · rw [removeTxnFromGraph_currentTime]
          exact tmCommitTransaction_currentTime s n
        · exact tmCommitTransaction_currentTime s n

theorem tmReadRequest_currentTime (s : SysState) (n : String) (i : Nat) :
    (tmReadRequest s n i).1.currentTime = s.currentTime := by
  unfold tmReadRequest
  cases alookup s.txnMap n with
  | none => rfl
  | some txn =>
    dsimp only
    split
    · rfl
    · cases alookup txn.uncommitted i with
      | some v => exact rfl
      | none =>
        dsimp only
        cases alookup txn.snapshot i with
        | none => rfl
        | some v => rfl

theorem tmWriteRequest_currentTime (s : SysState) (n : String) (i : Nat) (v : Int) :
    (tmWriteRequest s n i v).currentTime = s.currentTime := by
  unfold tmWriteRequest
  cases alookup s.txnMap n with
  | none => rfl
  | some txn =>
    dsimp only
    split
    · rfl
    · rfl

/-- C5 counterexample: fail(1) is handled by SiteManager.tick, which never
touches current_time, so processing it does not increment the clock. -/
theorem clock_not_advanced_by_fail :
    (step initState (.fail 1)).map (fun s => s.currentTime) ≠
      some (initState.currentTime + 1) := by
  decide

/-- C5 amended: only the commands dispatched to the TransactionManager
(begin, R, W, end) advance current_time by one; dump, fail, and recover are
handled by SiteManager.tick and leave current_time unchanged; end
additionally increments once more exactly when the commit reaches Phase 2
and a commit timestamp is assigned. -/
theorem clock_advance_per_command (s : SysState) :
    (∀ i s', step s (.fail i) = some s' → s'.currentTime = s.currentTime) ∧
    (∀ i s', step s (.recover i) = some s' → s'.currentTime = s.currentTime) ∧
    (∀ s', step s .dumpAll = some s' → s'.currentTime = s.currentTime) ∧
    (∀ i s', step s (.dumpVar i) = some s' → s'.currentTime = s.currentTime) ∧
    (∀ i s', step s (.dumpSite i) = some s' → s'.currentTime = s.currentTime) ∧
    (∀ n, (tmTick s (.begin n)).currentTime = s.currentTime + 1) ∧
    (∀ n i, (tmTick s (.read n i)).currentTime = s.currentTime + 1) ∧
    (∀ n i v, (tmTick s (.write n i v)).currentTime = s.currentTime + 1) ∧
    (∀ n, (tmTick s (.endT n)).currentTime =
      s.currentTime + 1 +
        (if assignsCommit (clearAborted { s with currentTime := s.currentTime + 1 }) n
         then 1 else 0)) := by
  refine ⟨?_, ?_, ?_, ?_, ?_, ?_, ?_, ?_, ?_⟩
  · intro i s' h
    rw [show step s (.fail i) = smFail s i from rfl] at h
    unfold smFail at h
    split at h
    · injection h with h
      subst h
      rfl
    · exact absurd h (by simp)
  · intro i s' h
    rw [show step s (.recover i) = smRecover s i from rfl] at h
    unfold smRecover at h
    split at h
    · injection h with h
      subst h
      rfl
    · exact absurd h (by simp)
  · intro s' h
    rw [show step s .dumpAll = some s from rfl] at h
    injection h with h
    subst h
    rfl
  · intro i s' h
    rw [show step s (.dumpVar i) = some s from rfl] at h
    injection h with h
    subst h
    rfl
  · intro i s' h
    rw [show step s (.dumpSite i) = (if 1 ≤ i ∧ i ≤ NUM_SITES then some s else none)
        from rfl] at h
    split at h
    · injection h with h
      subst h
      rfl
    · exact absurd h (by simp)
  · intro n
    unfold tmTick
    dsimp only
    rw [show ∀ (x : SysState) (m : String), (tmBegin x m).currentTime = x.currentTime
        from fun x m => rfl]
    rw [clearAborted_currentTime]
  · intro n i
    unfold tmTick
    dsimp only
    rw [tmReadRequest_currentTime, clearAborted_currentTime]
  · intro n i v
    unfold tmTick
    dsimp only
    rw [tmWriteRequest_currentTime, clearAborted_currentTime]
  · intro n
    unfold tmTick
    dsimp only
    rw [tmEnd_currentTime, clearAborted_currentTime]

/-- Witness for C5's amended statement at concrete inputs: fail does not
advance the clock, and a trivial end advances it twice (tick plus commit). -/
theorem clock_advance_per_command_witness :
    ((smFail initState 2).getD initState).currentTime = initState.currentTime ∧
    (tmTick c3State (.endT "T1")).currentTime =
      c3State.currentTime + 1 +
        (if assignsCommit (clearAborted { c3State with currentTime := c3State.currentTime + 1 })
            "T1" then 1 else 0) :=
  ⟨(clock_advance_per_command initState).1 2 ((smFail initState 2).getD initState) (by decide),
    (clock_advance_per_command c3State).2.2.2.2.2.2.2.2 "T1"⟩

theorem foldl_id_of {α β : Type} (f : β → α → β) :
    ∀ l : List α, (∀ x ∈ l, ∀ b, f b x = b) → ∀ acc : β, l.foldl f acc = acc := by
  intro l
  induction l with
  | nil => intro _ acc; rfl
  | cons x rest ih =>
    intro h acc
    rw [List.foldl_cons, h x (by simp) acc]
    exact ih (fun y hy b => h y (by simp [hy]) b) acc

/-- When every hosting site of a buffered variable is outside write_sites,
the inner Phase-5 loop does nothing. -/
theorem applyWriteToSites_id_of_disjoint (txn1 : Txn) (p : Nat × Int) (acc : SysState)
    (h : ∀ sid ∈ siteRange (getSites p.1), sid ∉ txn1.writeSites) :
    applyWriteToSites txn1 p acc = acc := by
  unfold applyWriteToSites
  refine foldl_id_of _ _ ?_ acc
  intro sid hs b
  dsimp only
  rw [if_pos (h sid hs)]

/-- When no hosting site of any buffered variable is in write_sites, Phase 5
only refreshes last_commit_ts and last_writer and leaves every site alone. -/
theorem applyWrites_of_disjoint (time : Nat) (name : String) (txn1 : Txn) (s2 : SysState)
    (hws : ∀ p ∈ txn1.uncommitted, ∀ sid ∈ siteRange (getSites p.1), sid ∉ txn1.writeSites) :
    applyWrites time name txn1 s2 =
      { s2 with
          lastCommitTs := txn1.uncommitted.foldl (fun m p => aset m p.1 time) s2.lastCommitTs
          lastWriter := txn1.uncommitted.foldl (fun m p => aset m p.1 name) s2.lastWriter } := by
  unfold applyWrites
  suffices h : ∀ l : List (Nat × Int),
      (∀ p ∈ l, ∀ sid ∈ siteRange (getSites p.1), sid ∉ txn1.writeSites) →
      ∀ acc : SysState,
        l.foldl
          (fun acc p =>
            let acc := applyWriteToSites txn1 p acc
            { acc with
                lastCommitTs := aset acc.lastCommitTs p.1 time
                lastWriter := aset acc.lastWriter p.1 name })
          acc
        = { acc with
            lastCommitTs := l.foldl (fun m p => aset m p.1 time) acc.lastCommitTs
            lastWriter := l.foldl (fun m p => aset m p.1 name) acc.lastWriter } by
    exact h txn1.uncommitted hws s2
  intro l
  induction l with
  | nil => intro _ acc; rfl
  | cons p rest ih =>
    intro h acc
    simp only [List.foldl_cons]
    rw [show (let a := applyWriteToSites txn1 p acc
          { a with
              lastCommitTs := aset a.lastCommitTs p.1 time
              lastWriter := aset a.lastWriter p.1 name })
        = ({ acc with
              lastCommitTs := aset acc.lastCommitTs p.1 time
              lastWriter := aset acc.lastWriter p.1 name } : SysState)
      from by rw [applyWriteToSites_id_of_disjoint txn1 p acc (h p (by simp))]]
    rw [ih (fun q hq => h q (by simp [hq]))]

theorem alookup_foldl_aset_const {β : Type} (c : β) :
    ∀ (l : List (Nat × Int)) (m : List (Nat × β)) (k : Nat),
      alookup (l.foldl (fun m q => aset m q.1 c) m) k =
        if k ∈ l.map Prod.fst then some c else alookup m k := by
  intro l
  induction l with
  | nil => intro m k; simp
  | cons q rest ih =>
    intro m k
    simp only [List.foldl_cons, List.map_cons]
    rw [ih]
    by_cases hk : k ∈ rest.map Prod.fst
    · rw [if_pos hk, if_pos (by simp [hk])]
    · rw [if_neg hk]
      by_cases he : k = q.1
      · rw [if_pos (by simp [he]), he, alookup_aset_self]
      · rw [if_neg (by simp [he, hk]), alookup_aset_ne _ _ _ _ he]

theorem alookup_foldl_asetf_notmem {β : Type} (g : List (Nat × β) → Nat → β) :
    ∀ (l : List (Nat × Int)) (m : List (Nat × β)) (k : Nat), k ∉ l.map Prod.fst →
      alookup (l.foldl (fun m q => aset m q.1 (g m q.1)) m) k = alookup m k := by
  intro l
  induction l with
  | nil => intro m k _; rfl
  | cons q rest ih =>
    intro m k hk
    simp only [List.map_cons, List.mem_cons, not_or] at hk
    rw [List.foldl_cons, ih _ k hk.2, alookup_aset_ne _ _ _ _ hk.1]

/-- Looking up a buffered key in the version-history fold yields the old
history with the new entry appended (buffer keys assumed distinct, as the
buffer is a dict). -/
theorem alookup_appendVH (e : Nat × String) :
    ∀ (l : List (Nat × Int)) (m : List (Nat × List (Nat × String))) (k : Nat),
      (l.map Prod.fst).Nodup → k ∈ l.map Prod.fst →
      alookup (l.foldl (fun vh q => aset vh q.1 (((alookup vh q.1).getD []) ++ [e])) m) k =
        some (((alookup m k).getD []) ++ [e]) := by
  intro l
  induction l with
  | nil => intro m k _ hk; exact absurd hk (by simp)
  | cons q rest ih =>
    intro m k hnd hk
    simp only [List.map_cons, List.nodup_cons] at hnd
    simp only [List.map_cons, List.mem_cons] at hk
    rw [List.foldl_cons]
    rcases hk with hk | hk
    · subst hk
      rw [alookup_foldl_asetf_notmem (fun vh key => ((alookup vh key).getD []) ++ [e])
        rest _ q.1 hnd.1]
      exact alookup_aset_self _ _ _
    · have hne : k ≠ q.1 := fun he => hnd.1 (he ▸ hk)
      rw [ih _ k hnd.2 hk, alookup_aset_ne _ _ _ _ hne]

theorem commitPrepared_sites (s : SysState) (n : String) (t : Txn) :
    (commitPrepared s n t).sites = s.sites := rfl

theorem commitPrepared_versionHistory (s : SysState) (n : String) (t : Txn) :
    (commitPrepared s n t).versionHistory =
      appendVersionHistory s n (s.currentTime + 1)
        { t with commitTs := some (s.currentTime + 1) } := rfl

/-- C9: a RUNNING transaction whose buffered variables have no hosting site
in write_sites (all were DOWN at write time), passing the SI check with no
SSI cycle, still commits: it is marked COMMITTED, last_commit_ts,
last_writer, and version_history are updated for every buffered variable,
and no site's storage changes. -/
theorem commit_succeeds_without_reachable_sites (s : SysState) (name : String) (txn : Txn)
    (hl : alookup s.txnMap name = some txn)
    (hr : txn.status = .RUNNING)
    (hconf : phase1Conflict s name txn = false)
    (hnd : (txn.uncommitted.map Prod.fst).Nodup)
    (hws : ∀ p ∈ txn.uncommitted, ∀ sid ∈ siteRange (getSites p.1), sid ∉ txn.writeSites)
    (hnc : hasCycleFrom (commitPrepared s name txn).depGraph name = false) :
    (∃ txn', alookup (tmCommitTransaction s name).txnMap name = some txn' ∧
      txn'.status = .COMMITTED ∧ txn'.commitTs = some (s.currentTime + 1)) ∧
    (tmCommitTransaction s name).sites = s.sites ∧
    (∀ p ∈ txn.uncommitted,
      alookup (tmCommitTransaction s name).lastCommitTs p.1 = some (s.currentTime + 1) ∧
      alookup (tmCommitTransaction s name).lastWriter p.1 = some name ∧
      alookup (tmCommitTransaction s name).versionHistory p.1 =
        some (((alookup s.versionHistory p.1).getD []) ++ [(s.currentTime + 1, name)])) := by
  have hterm : ¬ (txn.status = .COMMITTED ∨ txn.status = .ABORTED) := by
    rw [hr]; intro h; rcases h with h | h <;> exact absurd h (by simp)
  have hchain : tmCommitTransaction s name =
      { applyWrites (s.currentTime + 1) name { txn with commitTs := some (s.currentTime + 1) }
          (commitPrepared s name txn) with
        txnMap := aset (applyWrites (s.currentTime + 1) name
          { txn with commitTs := some (s.currentTime + 1) }
          (commitPrepared s name txn)).txnMap name
          { txn with commitTs := some (s.currentTime + 1), status := TxnStatus.COMMITTED } } := by
    unfold tmCommitTransaction
    rw [hl]
    dsimp only
    rw [if_neg hterm, if_neg (by rw [hconf]; simp), if_neg (by rw [hnc]; simp)]
  have hAW := applyWrites_of_disjoint (s.currentTime + 1) name
    { txn with commitTs := some (s.currentTime + 1) } (commitPrepared s name txn) hws
  refine ⟨?_, ?_, ?_⟩
  · rw [hchain]
    exact ⟨_, alookup_aset_self _ _ _, rfl, rfl⟩
  · rw [hchain]
    show (applyWrites (s.currentTime + 1) name
      { txn with commitTs := some (s.currentTime + 1) } (commitPrepared s name txn)).sites
      = s.sites
    rw [hAW]
    exact commitPrepared_sites s name txn
  · intro p hp
    rw [hchain]
    refine ⟨?_, ?_, ?_⟩
    · show alookup (applyWrites (s.currentTime + 1) name
        { txn with commitTs := some (s.currentTime + 1) }
        (commitPrepared s name txn)).lastCommitTs p.1 = some (s.currentTime + 1)
      rw [hAW]
      show alookup (List.foldl (fun m p => aset m p.1 (s.currentTime + 1))
        (commitPrepared s name txn).lastCommitTs txn.uncommitted) p.1
        = some (s.currentTime + 1)
      rw [alookup_foldl_aset_const]
      rw [if_pos (List.mem_map_of_mem Prod.fst hp)]
    · show alookup (applyWrites (s.currentTime + 1) name
        { txn with commitTs := some (s.currentTime + 1) }
        (commitPrepared s name txn)).lastWriter p.1 = some name
      rw [hAW]
      show alookup (List.foldl (fun m p => aset m p.1 name)
        (commitPrepared s name txn).lastWriter txn.uncommitted) p.1 = some name
      rw [alookup_foldl_aset_const]
      rw [if_pos (List.mem_map_of_mem Prod.fst hp)]
    · show alookup (applyWrites (s.currentTime + 1) name
        { txn with commitTs := some (s.currentTime + 1) }
        (commitPrepared s name txn)).versionHistory p.1
        = some (((alookup s.versionHistory p.1).getD []) ++ [(s.currentTime + 1, name)])
      rw [hAW]
      show alookup (commitPrepared s name txn).versionHistory p.1
        = some (((alookup s.versionHistory p.1).getD []) ++ [(s.currentTime + 1, name)])
      rw [commitPrepared_versionHistory]
      unfold appendVersionHistory
      exact alookup_appendVH (s.currentTime + 1, name) txn.uncommitted s.versionHistory p.1 hnd
        (List.mem_map_of_mem Prod.fst hp)

/-- State for the C9 witness: site 2 is failed, then T1 begins and writes
x1 (hosted only at the DOWN site 2), so write_sites stays empty. -/
def c9State : SysState :=
  tmTick (tmTick ((smFail initState 2).getD initState) (.begin "T1")) (.write "T1" 1 7)

/-- The T1 transaction record inside `c9State`. -/
def c9Txn : Txn := (alookup c9State.txnMap "T1").getD default

/-- Witness for C9: committing T1 in `c9State` marks it COMMITTED and
updates the SI metadata for x1 although no site receives the write. -/
theorem commit_succeeds_without_reachable_sites_witness :
    (∃ txn', alookup (tmCommitTransaction c9State "T1").txnMap "T1" = some txn' ∧
      txn'.status = .COMMITTED ∧ txn'.commitTs = some (c9State.currentTime + 1)) ∧
    (tmCommitTransaction c9State "T1").sites = c9State.sites ∧
    (∀ p ∈ c9Txn.uncommitted,
      alookup (tmCommitTransaction c9State "T1").lastCommitTs p.1 =
        some (c9State.currentTime + 1) ∧
      alookup (tmCommitTransaction c9State "T1").lastWriter p.1 = some "T1" ∧
      alookup (tmCommitTransaction c9State "T1").versionHistory p.1 =
        some (((alookup c9State.versionHistory p.1).getD []) ++
          [(c9State.currentTime + 1, "T1")])) :=
  commit_succeeds_without_reachable_sites c9State "T1" c9Txn (by decide) (by decide)
    (by decide) (by decide) (by decide) (by decide)

/-- Final state of spec Scenario 2 (SI write-write conflict). -/
def c7Run : SysState :=
  (runO initState [.begin "T1", .begin "T2", .write "T1" 1 5, .write "T2" 1 6,
    .endT "T1", .endT "T2"]).getD initState

/-- C7 counterexample: T2 is aborted by the Phase-1 SI check, which sets the
status but never clears uncommitted_variables, so the aborted transaction's
buffer persists in transaction_map (the claim says it does not persist). -/
theorem aborted_buffer_persists :
    ((alookup c7Run.txnMap "T2").map fun t => t.status) = some .ABORTED ∧
    ((alookup c7Run.txnMap "T2").map fun t => t.uncommitted) = some [(1, 6)] ∧
    some [(1, 6)] ≠ some ([] : List (Nat × Int)) := by
  refine ⟨by decide, by decide, by decide⟩

theorem getD_set_ne {α : Type} :
    ∀ (l : List α) (n : Nat) (a d : α) (j : Nat), j ≠ n → (l.set n a).getD j d = l.getD j d := by
  intro l
  induction l with
  | nil => intro n a d j _; simp
  | cons x rest ih =>
    intro n a d j hj
    cases n with
    | zero =>
      cases j with
      | zero => exact absurd rfl hj
      | succ jm => rfl
    | succ nm =>
      cases j with
      | zero => rfl
      | succ jm => exact ih nm a d jm (by omega)

/-- Setting a site whose storage equals the stored site's storage never
changes any slot's storage. -/
theorem getD_set_data (l : List Site) (n : Nat) (a : Site) (j : Nat)
    (h : a.data = (l.getD n default).data) :
    ((l.set n a).getD j default).data = (l.getD j default).data := by
  by_cases hj : j = n
  · subst hj
    by_cases hb : j < l.length
    · rw [getD_set_self _ _ _ _ hb]
      exact h
    · rw [set_of_length_le _ _ _ (by omega)]
  · rw [getD_set_ne _ _ _ _ _ hj]

theorem tmReadRequest_sites (s : SysState) (n : String) (i : Nat) :
    (tmReadRequest s n i).1.sites = s.sites := by
  unfold tmReadRequest
  cases alookup s.txnMap n with
  | none => rfl
  | some txn =>
    dsimp only
    split
    · rfl
    · cases alookup txn.uncommitted i with
      | some v => rfl
      | none =>
        dsimp only
        cases alookup txn.snapshot i with
        | none => rfl
        | some v => rfl

theorem tmWriteRequest_sites (s : SysState) (n : String) (i : Nat) (v : Int) :
    (tmWriteRequest s n i v).sites = s.sites := by
  unfold tmWriteRequest
  cases alookup s.txnMap n with
  | none => rfl
  | some txn =>
    dsimp only
    split
    · rfl
    · rfl

/-- commit_transaction either leaves every site untouched or commits a
previously RUNNING transaction. -/
theorem tmCommitTransaction_sites_or_commit (s : SysState) (n : String) :
    (tmCommitTransaction s n).sites = s.sites ∨
    (∃ txn txn', alookup s.txnMap n = some txn ∧ txn.status = .RUNNING ∧
      alookup (tmCommitTransaction s n).txnMap n = some txn' ∧
      txn'.status = .COMMITTED) := by
  unfold tmCommitTransaction
  cases hl : alookup s.txnMap n with
  | none => exact Or.inl rfl
  | some txn =>
    dsimp only
    by_cases hterm : txn.status = .COMMITTED ∨ txn.status = .ABORTED
    · rw [if_pos hterm]
      exact Or.inl rfl
    · rw [if_neg hterm]
      have hr : txn.status = .RUNNING := by
        cases hst : txn.status
        · rfl
        · exact absurd (Or.inr hst) hterm
        · exact absurd (Or.inl hst) hterm
      by_cases hconf : phase1Conflict s n txn = true
      · rw [if_pos hconf]
        exact Or.inl rfl
      · rw [if_neg hconf]
        by_cases hc : hasCycleFrom (commitPrepared s n txn).depGraph n = true
        · rw [if_pos hc]
          exact Or.inl rfl
        · rw [if_neg hc]
          exact Or.inr ⟨txn, _, rfl, hr, alookup_aset_self _ _ _, rfl⟩

/-- end either leaves every site untouched or commits a previously RUNNING
transaction. -/
theorem tmEnd_sites_or_commit (s : SysState) (n : String) :
    (tmEnd s n).sites = s.sites ∨
    (∃ txn txn', alookup s.txnMap n = some txn ∧ txn.status = .RUNNING ∧
      alookup (tmEnd s n).txnMap n = some txn' ∧ txn'.status = .COMMITTED) := by
  unfold tmEnd
  cases hl : alookup s.txnMap n with
  | none => exact Or.inl rfl
  | some txn =>
    dsimp only
    by_cases hterm : txn.status = .COMMITTED ∨ txn.status = .ABORTED
    · rw [if_pos hterm]
      exact Or.inl rfl
    · rw [if_neg hterm]
      rcases tmCommitTransaction_sites_or_commit s n with hs | ⟨txn0, txn', h1, hr, h2, hC⟩
      · cases h2 : alookup (tmCommitTransaction s n).txnMap n with
        | none =>
          dsimp only
          exact Or.inl hs
        | some txn' =>
          dsimp only
          split
          · rw [removeTxnFromGraph_sites]
            exact Or.inl hs
          · exact Or.inl hs
      · rw [h2]
        dsimp only
        rw [if_neg (by rw [hC]; intro hfalse; exact absurd hfalse (by simp))]
        rw [hl] at h1
        exact Or.inr ⟨txn0, txn', h1, hr, h2, hC⟩

/-- C7 amended: a site's stored values change during a step only when that
step is end(T) for a transaction T that was RUNNING and becomes COMMITTED;
in particular an ABORTED transaction's buffered values are never applied to
any site. -/
theorem sites_change_only_on_successful_commit (s : SysState) (inst : Instr) (s' : SysState)
    (k : Nat) (hstep : step s inst = some s')
    (hdiff : (getSite s' k).data ≠ (getSite s k).data) :
    ∃ n txn txn', inst = .endT n ∧ alookup s.txnMap n = some txn ∧
      txn.status = .RUNNING ∧ alookup s'.txnMap n = some txn' ∧
      txn'.status = .COMMITTED := by
  cases inst with
  | fail i =>
    rw [show step s (.fail i) = smFail s i from rfl] at hstep
    unfold smFail at hstep
    split at hstep
    · injection hstep with hstep
      subst hstep
      exact absurd (getD_set_data s.sites (i - 1) (siteFail (getSite s i)) (k - 1) rfl) hdiff
    · exact absurd hstep (by simp)
  | recover i =>
    rw [show step s (.recover i) = smRecover s i from rfl] at hstep
    unfold smRecover at hstep
    split at hstep
    · injection hstep with hstep
      subst hstep
      exact absurd (getD_set_data s.sites (i - 1) (siteRecover (getSite s i)) (k - 1) rfl) hdiff
    · exact absurd hstep (by simp)
  | dumpAll =>
    rw [show step s .dumpAll = some s from rfl] at hstep
    injection hstep with hstep
    subst hstep
    exact absurd rfl hdiff
  | dumpVar i =>
    rw [show step s (.dumpVar i) = some s from rfl] at hstep
    injection hstep with hstep
    subst hstep
    exact absurd rfl hdiff
  | dumpSite i =>
    rw [show step s (.dumpSite i) = (if 1 ≤ i ∧ i ≤ NUM_SITES then some s else none)
        from rfl] at hstep
    split at hstep
    · injection hstep with hstep
      subst hstep
      exact absurd rfl hdiff
    · exact absurd hstep (by simp)
  | begin n =>
    rw [show step s (.begin n) = some (tmTick s (.begin n)) from rfl] at hstep
    injection hstep with hstep
    subst hstep
    refine absurd ?_ hdiff
    show (getSite (tmBegin (clearAborted { s with currentTime := s.currentTime + 1 }) n) k).data
      = (getSite s k).data
    unfold getSite
    rw [show (tmBegin (clearAborted { s with currentTime := s.currentTime + 1 }) n).sites
        = s.sites from by
      rw [show ∀ x : SysState, (tmBegin x n).sites = x.sites from fun x => rfl]
      rw [clearAborted_sites]]
  | read n i =>
    rw [show step s (.read n i) = some (tmTick s (.read n i)) from rfl] at hstep
    injection hstep with hstep
    subst hstep
    refine absurd ?_ hdiff
    show (getSite (tmReadRequest (clearAborted { s with currentTime := s.currentTime + 1 })
      n i).1 k).data = (getSite s k).data
    unfold getSite
    rw [tmReadRequest_sites, clearAborted_sites]
  | write n i v =>
    rw [show step s (.write n i v) = some (tmTick s (.write n i v)) from rfl] at hstep
    injection hstep with hstep
    subst hstep
    refine absurd ?_ hdiff
    show (getSite (tmWriteRequest (clearAborted { s with currentTime := s.currentTime + 1 })
      n i v) k).data = (getSite s k).data
    unfold getSite
    rw [tmWriteRequest_sites, clearAborted_sites]
  | endT n =>
    rw [show step s (.endT n) = some (tmTick s (.endT n)) from rfl] at hstep
    injection hstep with hstep
    subst hstep
    have hcc := clearAborted_txnMap { s with currentTime := s.currentTime + 1 }
    rcases tmEnd_sites_or_commit (clearAborted { s with currentTime := s.currentTime + 1 }) n
      with hs | ⟨txn, txn', h1, hr, h2, hC⟩
    · refine absurd ?_ hdiff
      show (getSite (tmEnd (clearAborted { s with currentTime := s.currentTime + 1 }) n) k).data
        = (getSite s k).data
      unfold getSite
      rw [hs, clearAborted_sites]
    · rw [hcc] at h1
      exact ⟨n, txn, txn', rfl, h1, hr, h2, hC⟩

/-- State for the C7 witness: T1 has begun and buffered x1 = 5. -/
def c7WitnessState : SysState := tmTick (tmTick initState (.begin "T1")) (.write "T1" 1 5)

/-- Witness for C7's amended statement: ending T1 changes site 2's storage,
and indeed T1 was RUNNING and is COMMITTED afterwards. -/
theorem sites_change_only_on_successful_commit_witness :
    ∃ n txn txn', Instr.endT "T1" = Instr.endT n ∧
      alookup c7WitnessState.txnMap n = some txn ∧
      txn.status = .RUNNING ∧
      alookup ((step c7WitnessState (.endT "T1")).getD initState).txnMap n = some txn' ∧
      txn'.status = .COMMITTED :=
  sites_change_only_on_successful_commit c7WitnessState (.endT "T1")
    ((step c7WitnessState (.endT "T1")).getD initState) 2 (by decide) (by decide)

/-- Final state of spec Scenario 3 (SSI cycle / write skew). -/
def c4Run : SysState :=
  (runO initState [.begin "T1", .begin "T2", .read "T1" 1, .read "T2" 2,
    .write "T1" 2 22, .write "T2" 1 11, .endT "T1", .endT "T2"]).getD initState

/-- C4 counterexample: T2 is aborted by the SSI cycle check after commit_ts
was already assigned (Phase 2 precedes Phase 4), so a reachable state holds
a transaction with commit_ts set whose status is ABORTED, refuting the
"commit_ts is set iff status == COMMITTED" claim. -/
theorem commit_ts_set_on_aborted_txn :
    ((alookup c4Run.txnMap "T2").map fun t => (t.status, t.commitTs)) =
      some (TxnStatus.ABORTED, some 10) := by
  decide

/-- Per-transaction commit-timestamp invariant at a given clock value. -/
def TxnOK (time : Nat) (t : Txn) : Prop :=
  t.startTs ≤ time ∧ (t.status = .COMMITTED → t.commitTs.isSome) ∧
    (∀ c, t.commitTs = some c → t.startTs < c)

/-- System-wide commit-timestamp invariant. -/
def Inv (s : SysState) : Prop :=
  ∀ n txn, alookup s.txnMap n = some txn → TxnOK s.currentTime txn

theorem TxnOK_mono (t1 t2 : Nat) (h : t1 ≤ t2) (txn : Txn) :
    TxnOK t1 txn → TxnOK t2 txn := by
  rintro ⟨h1, h2, h3⟩
  exact ⟨Nat.le_trans h1 h, h2, h3⟩

theorem Inv_congr (s s' : SysState) (hm : s'.txnMap = s.txnMap)
    (ht : s'.currentTime = s.currentTime) (h : Inv s) : Inv s' := by
  intro n txn hl
  rw [hm] at hl
  rw [ht]
  exact h n txn hl

theorem alookup_aset_cases {α β : Type} [DecidableEq α] (m : List (α × β)) (k : α) (v : β)
    (j : α) (w : β) (h : alookup (aset m k v) j = some w) :
    (j = k ∧ w = v) ∨ (j ≠ k ∧ alookup m j = some w) := by
  by_cases hj : j = k
  · subst hj
    rw [alookup_aset_self] at h
    injection h with h
    exact Or.inl ⟨rfl, h.symm⟩
  · rw [alookup_aset_ne _ _ _ _ hj] at h
    exact Or.inr ⟨hj, h⟩

theorem abortSiteFun_fst (i : Nat) (p : String × Txn) : (abortSiteFun i p).1 = p.1 := by
  unfold abortSiteFun
  split
  · rfl
  · split
    · rfl
    · rfl

theorem abortSiteFun_snd (i : Nat) (p : String × Txn) :
    (abortSiteFun i p).2 = p.2 ∨ (abortSiteFun i p).2 = { p.2 with status := TxnStatus.ABORTED } := by
  unfold abortSiteFun
  split
  · exact Or.inl rfl
  · split
    · exact Or.inr rfl
    · exact Or.inl rfl

theorem alookup_map_abortSiteFun (i : Nat) :
    ∀ (l : List (String × Txn)) (j : String) (t : Txn),
      alookup (l.map (abortSiteFun i)) j = some t →
      ∃ t0, alookup l j = some t0 ∧
        (t = t0 ∨ t = { t0 with status := TxnStatus.ABORTED }) := by
  intro l
  induction l with
  | nil => intro j t h; exact absurd h (by simp [alookup])
  | cons p rest ih =>
    intro j t h
    rw [List.map_cons] at h
    by_cases hj : j = (abortSiteFun i p).1
    · rw [show alookup (abortSiteFun i p :: rest.map (abortSiteFun i)) j =
          some (abortSiteFun i p).2 from by
        rw [show abortSiteFun i p = ((abortSiteFun i p).1, (abortSiteFun i p).2) from rfl]
        simp [alookup, hj]] at h
      injection h with h
      rw [abortSiteFun_fst] at hj
      refine ⟨p.2, by simp [alookup, hj], ?_⟩
      rcases abortSiteFun_snd i p with hs | hs
      · exact Or.inl (h.symm.trans hs)
      · exact Or.inr (h.symm.trans hs)
    · rw [show alookup (abortSiteFun i p :: rest.map (abortSiteFun i)) j =
          alookup (rest.map (abortSiteFun i)) j from by
        rw [show abortSiteFun i p = ((abortSiteFun i p).1, (abortSiteFun i p).2) from rfl]
        simp [alookup, hj]] at h
      obtain ⟨t0, h0, hrel⟩ := ih j t h
      rw [abortSiteFun_fst] at hj
      exact ⟨t0, by simp [alookup, hj, h0], hrel⟩

theorem TxnOK_abort (time : Nat) (t : Txn) (h : TxnOK time t) :
    TxnOK time { t with status := TxnStatus.ABORTED } := by
  obtain ⟨h1, h2, h3⟩ := h
  refine ⟨h1, ?_, h3⟩
  intro hc
  exact absurd hc (by simp)

theorem Inv_abortTransactionsOnSiteFailure (s : SysState) (i : Nat) (h : Inv s) :
    Inv (abortTransactionsOnSiteFailure s i) := by
  intro n txn hl
  obtain ⟨t0, h0, hrel⟩ := alookup_map_abortSiteFun i s.txnMap n txn hl
  have hok := h n t0 h0
  rcases hrel with hrel | hrel
  · subst hrel
    exact hok
  · subst hrel
    exact TxnOK_abort _ _ hok

theorem Inv_clearAborted (s : SysState) (h : Inv s) : Inv (clearAborted s) :=
  Inv_congr s (clearAborted s) (clearAborted_txnMap s) (clearAborted_currentTime s) h

theorem Inv_tmBegin (s : SysState) (n : String) (h : Inv s) : Inv (tmBegin s n) := by
  intro j txn hl
  rcases alookup_aset_cases s.txnMap n _ j txn hl with ⟨hj, hv⟩ | ⟨hj, hv⟩
  · subst hv
    exact ⟨Nat.le_refl _, fun hc => absurd hc (by simp), fun c hc => by simp at hc⟩
  · exact h j txn hv

theorem Inv_recordRead (s : SysState) (n : String) (txn : Txn) (i : Nat) (v : Int)
    (h : Inv s) (hok : TxnOK s.currentTime txn) : Inv (recordRead s n txn i v) := by
  intro j t hl
  unfold recordRead at hl
  rcases alookup_aset_cases s.txnMap n _ j t hl with ⟨hj, hv⟩ | ⟨hj, hv⟩
  · subst hv
    exact ⟨hok.1, hok.2.1, hok.2.2⟩
  · exact h j t hv

theorem Inv_tmReadRequest (s : SysState) (n : String) (i : Nat) (h : Inv s) :
    Inv (tmReadRequest s n i).1 := by
  unfold tmReadRequest
  cases hl : alookup s.txnMap n with
  | none => exact h
  | some txn =>
    dsimp only
    split
    · exact h
    · have hok := h n txn hl
      cases alookup txn.uncommitted i with
      | some v => exact Inv_recordRead s n txn i v h hok
      | none =>
        dsimp only
        cases alookup txn.snapshot i with
        | none =>
          intro j t hl'
          rcases alookup_aset_cases s.txnMap n _ j t hl' with ⟨hj, hv⟩ | ⟨hj, hv⟩
          · subst hv
            exact TxnOK_abort _ _ hok
          · exact h j t hv
        | some v => exact Inv_recordRead s n txn i v h hok

theorem Inv_tmWriteRequest (s : SysState) (n : String) (i : Nat) (v : Int) (h : Inv s) :
    Inv (tmWriteRequest s n i v) := by
  unfold tmWriteRequest
  cases hl : alookup s.txnMap n with
  | none => exact h
  | some txn =>
    dsimp only
    split
    · exact h
    · have hok := h n txn hl
      intro j t hl'
      rcases alookup_aset_cases s.txnMap n _ j t hl' with ⟨hj, hv⟩ | ⟨hj, hv⟩
      · subst hv
        exact ⟨hok.1, hok.2.1, hok.2.2⟩
      · exact h j t hv

theorem Inv_tmCommitTransaction (s : SysState) (n : String) (h : Inv s) :
    Inv (tmCommitTransaction s n) := by
  unfold tmCommitTransaction
  cases hl : alookup s.txnMap n with
  | none => exact h
  | some txn =>
    dsimp only
    split
    · exact h
    · have hok := h n txn hl
      split
      · intro j t hl'
        rcases alookup_aset_cases s.txnMap n _ j t hl' with ⟨hj, hv⟩ | ⟨hj, hv⟩
        · subst hv
          exact TxnOK_abort _ _ hok
        · exact h j t hv
      · split
        · intro j t hl'
          rw [removeTxnFromGraph_txnMap] at hl'
          rw [removeTxnFromGraph_currentTime]
          rcases alookup_aset_cases _ n _ j t hl' with ⟨hj, hv⟩ | ⟨hj, hv⟩
          · subst hv
            refine ⟨Nat.le_succ_of_le hok.1, fun hc => absurd hc (by simp), ?_⟩
            intro c hc
            show txn.startTs < c
            have : c = s.currentTime + 1 := by
              injection hc with hc
              exact hc.symm
            subst this
            exact Nat.lt_succ_of_le hok.1
          · rw [show (commitPrepared s n txn).txnMap =
                aset s.txnMap n { txn with commitTs := some (s.currentTime + 1) } from rfl]
              at hv
            rcases alookup_aset_cases _ n _ j t hv with ⟨hj2, _⟩ | ⟨_, hv2⟩
            · exact absurd hj2 hj
            · exact TxnOK_mono _ _ (Nat.le_succ _) t (h j t hv2)
        · intro j t hl'
          rw [applyWrites_txnMap] at hl'
          show TxnOK (applyWrites (s.currentTime + 1) n
            { txn with commitTs := some (s.currentTime + 1) }
            (commitPrepared s n txn)).currentTime t
          rw [applyWrites_currentTime]
          rw [show (commitPrepared s n txn).currentTime = s.currentTime + 1 from rfl]
          rcases alookup_aset_cases _ n _ j t hl' with ⟨hj, hv⟩ | ⟨hj, hv⟩
          · subst hv
            refine ⟨Nat.le_succ_of_le hok.1, fun _ => rfl, ?_⟩
            intro c hc
            show txn.startTs < c
            have : c = s.currentTime + 1 := by
              injection hc with hc
              exact hc.symm
            subst this
            exact Nat.lt_succ_of_le hok.1
          · rw [show (commitPrepared s n txn).txnMap =
                aset s.txnMap n { txn with commitTs := some (s.currentTime + 1) } from rfl]
              at hv
            rcases alookup_aset_cases _ n _ j t hv with ⟨hj2, _⟩ | ⟨_, hv2⟩
            · exact absurd hj2 hj
            · exact TxnOK_mono _ _ (Nat.le_succ _) t (h j t hv2)

theorem Inv_tmEnd (s : SysState) (n : String) (h : Inv s) : Inv (tmEnd s n) := by
  unfold tmEnd
  cases hl : alookup s.txnMap n with
  | none => exact h
  | some txn =>
    dsimp only
    split
    · exact h
    · have hc := Inv_tmCommitTransaction s n h
      cases alookup (tmCommitTransaction s n).txnMap n with
      | none => exact hc
      | some txn' =>
        dsimp only
        split
        · exact Inv_congr _ _ (removeTxnFromGraph_txnMap _ n)
            (removeTxnFromGraph_currentTime _ n) hc
        · exact hc

theorem Inv_tmTick (s : SysState) (inst : Instr) (h : Inv s) : Inv (tmTick s inst) := by
  unfold tmTick
  have h1 : Inv { s with currentTime := s.currentTime + 1 } := by
    intro j t hl
    exact TxnOK_mono _ _ (Nat.le_succ _) t (h j t hl)
  have h2 := Inv_clearAborted _ h1
  cases inst with
  | begin n => exact Inv_tmBegin _ n h2
  | read n i => exact Inv_tmReadRequest _ n i h2
  | write n i v => exact Inv_tmWriteRequest _ n i v h2
  | endT n => exact Inv_tmEnd _ n h2
  | fail i => exact h2
  | recover i => exact h2
  | dumpAll => exact h2
  | dumpVar i => exact h2
  | dumpSite i => exact h2

theorem Inv_step (s : SysState) (inst : Instr) (s' : SysState)
    (h : Inv s) (hs : step s inst = some s') : Inv s' := by
  cases inst with
  | fail i =>
    rw [show step s (.fail i) = smFail s i from rfl] at hs
    unfold smFail at hs
    split at hs
    · injection hs with hs
      subst hs
      refine Inv_abortTransactionsOnSiteFailure _ i ?_
      exact Inv_congr s _ rfl rfl h
    · exact absurd hs (by simp)
  | recover i =>
    rw [show step s (.recover i) = smRecover s i from rfl] at hs
    unfold smRecover at hs
    split at hs
    · injection hs with hs
      subst hs
      exact Inv_congr s _ rfl rfl h
    · exact absurd hs (by simp)
  | dumpAll =>
    rw [show step s .dumpAll = some s from rfl] at hs
    injection hs with hs
    subst hs
    exact h
  | dumpVar i =>
    rw [show step s (.dumpVar i) = some s from rfl] at hs
    injection hs with hs
    subst hs
    exact h
  | dumpSite i =>
    rw [show step s (.dumpSite i) = (if 1 ≤ i ∧ i ≤ NUM_SITES then some s else none)
        from rfl] at hs
    split at hs
    · injection hs with hs
      subst hs
      exact h
    · exact absurd hs (by simp)
  | begin n =>
    rw [show step s (.begin n) = some (tmTick s (.begin n)) from rfl] at hs
    injection hs with hs
    subst hs
    exact Inv_tmTick s _ h
  | read n i =>
    rw [show step s (.read n i) = some (tmTick s (.read n i)) from rfl] at hs
    injection hs with hs
    subst hs
    exact Inv_tmTick s _ h
  | write n i v =>
    rw [show step s (.write n i v) = some (tmTick s (.write n i v)) from rfl] at hs
    injection hs with hs
    subst hs
    exact Inv_tmTick s _ h
  | endT n =>
    rw [show step s (.endT n) = some (tmTick s (.endT n)) from rfl] at hs
    injection hs with hs
    subst hs
    exact Inv_tmTick s _ h

theorem Inv_runO : ∀ (cmds : List Instr) (s s' : SysState),
    Inv s → runO s cmds = some s' → Inv s' := by
  intro cmds
  induction cmds with
  | nil =>
    intro s s' h hr
    unfold runO at hr
    injection hr with hr
    subst hr
    exact h
  | cons inst rest ih =>
    intro s s' h hr
    unfold runO at hr
    cases hstep : step s inst with
    | none => rw [hstep] at hr; exact absurd hr (by simp)
    | some s1 =>
      rw [hstep] at hr
      exact ih s1 s' (Inv_step s inst s1 h hstep) hr

theorem Inv_initState : Inv initState := by
  intro n txn hl
  exact absurd hl (by simp [initState, alookup])

/-- C4 amended: in every reachable state, a COMMITTED transaction has
commit_ts set, and any set commit_ts is strictly greater than start_ts; the
converse direction of the original claim fails because a transaction aborted
by the SSI cycle check retains its assigned commit_ts. -/
theorem committed_implies_commit_ts (cmds : List Instr) (s : SysState)
    (hrun : runO initState cmds = some s) (n : String) (txn : Txn)
    (hl : alookup s.txnMap n = some txn) :
    (txn.status = .COMMITTED → txn.commitTs.isSome) ∧
    (∀ c, txn.commitTs = some c → txn.startTs < c) := by
  have hInv := Inv_runO cmds initState s Inv_initState hrun
  have hok := hInv n txn hl
  exact ⟨hok.2.1, hok.2.2⟩

/-- Final state of spec Scenario 1 (basic SI commit). -/
def c4WitnessRun : SysState :=
  (runO initState [.begin "T1", .write "T1" 1 101, .endT "T1"]).getD initState

/-- Witness for C4's amended claim on the committed T1 of Scenario 1. -/
theorem committed_implies_commit_ts_witness :
    (((alookup c4WitnessRun.txnMap "T1").getD default).status = .COMMITTED →
      ((alookup c4WitnessRun.txnMap "T1").getD default).commitTs.isSome) ∧
    (∀ c, ((alookup c4WitnessRun.txnMap "T1").getD default).commitTs = some c →
      ((alookup c4WitnessRun.txnMap "T1").getD default).startTs < c) :=
  committed_implies_commit_ts [.begin "T1", .write "T1" 1 101, .endT "T1"] c4WitnessRun
    (by decide) "T1" ((alookup c4WitnessRun.txnMap "T1").getD default) (by decide)

end RepCRec
